import Mathlib

/-
Verification of the suncompass astronomical event engine
(src/server/src/suncalc.ts, src/server/src/mathfuncs.ts,
src/server/src/SunTime.ts and the SVG polygon tracer).

Modelling conventions.  Unix timestamps are integer milliseconds (ℤ); the
code only ever samples the position model at integer instants, while the
intermediate solar-noon/midnight estimates are genuine rationals (ℚ).
Angles and minutes are rationals.  The two transcendental ingredients of
the position model, the equation of time and the elevation/azimuth
computation of sunPosition, are kept abstract in an environment `Env`:
every algorithmic layer above them (solarTime, solarNoon, solarMidnight,
maxAndMin, dawn, dusk, allSunEvents, intervals) is transcribed literally
from the TypeScript source over that environment.  The refraction formula
is a closed-form real expression and is embedded over ℝ directly.
-/

namespace SunCompass

/-- constants.DAY_LENGTH: milliseconds in a day. -/
def DAY_LENGTH : ℤ := 86400000

/-- mathfuncs.mod: ((x % y) + y) % y.  For y > 0 this JS double-remainder
is exactly x - y * floor (x / y). -/
def mfmod (x y : ℚ) : ℚ := x - y * ⌊x / y⌋

/-- mathfuncs.clamp with explicit bounds (x <= min gives min, x >= max gives max). -/
def clamp (x lo hi : ℚ) : ℚ := if x ≤ lo then lo else if x ≥ hi then hi else x

/-- SunTime.ts: the record for one solar event.  The stored time is an
integer millisecond timestamp (the engine floors every event time). -/
structure SunTime where
  time : ℤ
  solarElevation : ℚ
  solarAzimuth : ℚ
  eventType : String
deriving Repr, DecidableEq

/-- The abstract transcendental position model.
`EoT u` is suncalc.equationOfTime at Unix millisecond u, in minutes;
`elevAz lat long t ecef` is suncalc.sunPosition (unrefracted elevation,
azimuth) at integer millisecond t. -/
structure Env where
  EoT : ℚ → ℚ
  elevAz : ℚ → ℚ → ℤ → List ℚ → ℚ × ℚ

/-- suncalc.solarTime: apparent solar time in minutes after solar midnight,
mod (equationOfTime unix + (unix / 60000 + longitude * 4), 1440). -/
def solarTime (env : Env) (long unix : ℚ) : ℚ :=
  mfmod (env.EoT unix + (unix / 60000 + long * 4)) 1440

/-- suncalc.solarNoon, transcribed branch for branch from the source. -/
def solarNoon (env : Env) (lat long : ℚ) (start dayEnd : ℤ) (ecef : List ℚ) :
    List SunTime :=
  let st00 := solarTime env long start
  let st24 := solarTime env long dayEnd
  let stDiff := mfmod (st24 - st00 - 720) 1440 + 720
  let rate := stDiff / ((dayEnd : ℚ) - (start : ℚ)) * 60000
  if st00 > 600 ∧ st00 ≤ 720 ∧ st24 > 720 ∧ st24 < 840 then
    -- 2 solar noons in a day
    let n0a := (start : ℚ) + (720 - st00) / rate * 60000
    let n0b := n0a + (720 - solarTime env long n0a) * 60000
    let n0 : ℤ := ⌊clamp n0b (start : ℚ) ((dayEnd : ℚ) - 1)⌋
    let ea0 := env.elevAz lat long n0 ecef
    let n1a := (dayEnd : ℚ) - 60000 * (st24 - 720) / rate
    let n1b := n1a + (720 - solarTime env long n1a) * 60000
    let n1 : ℤ := ⌊clamp n1b (start : ℚ) ((dayEnd : ℚ) - 1)⌋
    let ea1 := env.elevAz lat long n1 ecef
    [⟨n0, ea0.1, ea0.2, "Solar Noon"⟩, ⟨n1, ea1.1, ea1.2, "Solar Noon"⟩]
  else if st00 > 720 ∧ st00 < 840 ∧ st24 > 600 ∧ st24 ≤ 720 then
    -- 0 solar noons in a day
    []
  else
    -- 1 solar noon in a day
    let na := (start : ℚ) + mfmod (720 - st00) 1440 / rate * 60000
    let nb := na + (720 - solarTime env long na) * 60000
    let n : ℤ := ⌊clamp nb (start : ℚ) ((dayEnd : ℚ) - 1)⌋
    let ea := env.elevAz lat long n ecef
    [⟨n, ea.1, ea.2, "Solar Noon"⟩]

/-- suncalc.solarMidnight, transcribed branch for branch from the source. -/
def solarMidnight (env : Env) (lat long : ℚ) (start dayEnd : ℤ) (ecef : List ℚ) :
    List SunTime :=
  let st00 := solarTime env long start
  let st24 := solarTime env long dayEnd
  let stDiff := mfmod (st24 - st00 - 720) 1440 + 720
  let rate := stDiff / ((dayEnd : ℚ) - (start : ℚ)) * 60000
  if st00 > 1320 ∧ st24 < 120 then
    -- 2 solar midnights in a day
    let m0a := (start : ℚ) + (1440 - st00) / rate * 60000
    let m0b := m0a + (720 - mfmod (solarTime env long m0a + 720) 1440) * 60000
    let m0 : ℤ := ⌊clamp m0b (start : ℚ) ((dayEnd : ℚ) - 1)⌋
    let ea0 := env.elevAz lat long m0 ecef
    let m1a := (dayEnd : ℚ) - st24 / rate * 60000
    let m1b := m1a + (720 - mfmod (solarTime env long m1a + 720) 1440) * 60000
    let m1 : ℤ := ⌊clamp m1b (start : ℚ) ((dayEnd : ℚ) - 1)⌋
    let ea1 := env.elevAz lat long m1 ecef
    [⟨m0, ea0.1, ea0.2, "Solar Midnight"⟩, ⟨m1, ea1.1, ea1.2, "Solar Midnight"⟩]
  else if st00 < 120 ∧ st24 > 1320 then
    -- 0 solar midnights in a day
    []
  else
    -- 1 solar midnight in a day
    let ma := (dayEnd : ℚ) - st24 / rate * 60000
    let mb := ma + (720 - mfmod (solarTime env long ma + 720) 1440) * 60000
    let m : ℤ := ⌊clamp mb (start : ℚ) ((dayEnd : ℚ) - 1)⌋
    let ea := env.elevAz lat long m ecef
    [⟨m, ea.1, ea.2, "Solar Midnight"⟩]

/-- suncalc.derivative: central difference of the elevation over
[t - 500 ms, t + 500 ms]. -/
def derivative (env : Env) (lat long : ℚ) (t : ℤ) (ecef : List ℚ) : ℚ :=
  (env.elevAz lat long (t + 500) ecef).1 - (env.elevAz lat long (t - 500) ecef).1

/-- The coarse sampling grid of suncalc.maxAndMin:
[start, start+4h, start+8h, start+12h, start+16h, start+20h, end]. -/
def mamGrid (start dayEnd : ℤ) : List ℤ :=
  [start, start + 14400000, start + 28800000, start + 43200000,
   start + 57600000, start + 72000000, dayEnd]

/-- One iteration of the shared bisection loop shape
`while (t1 - t0 > 1) { avg := floor((t0+t1)/2); if Q avg then t0 := avg else t1 := avg }`.
It is the identity exactly on the loop exit condition t1 - t0 <= 1. -/
def bisectStep (Q : ℤ → Bool) (s : ℤ × ℤ) : ℤ × ℤ :=
  if s.2 - s.1 ≤ 1 then s
  else
    let m := (s.1 + s.2).fdiv 2
    if Q m then (m, s.2) else (s.1, m)

/-- The bisection loop run to completion, returning the final t0.
(t1 - t0).toNat iterations always suffice since the bracket width halves;
the step is the identity once the exit condition holds, so the iterate
equals the loop of the source. -/
def bisect (Q : ℤ → Bool) (t0 t1 : ℤ) : ℤ :=
  ((bisectStep Q)^[(t1 - t0).toNat] (t0, t1)).1

/-- Consecutive pairs of a list: the pairs scanned by the
`for (i = 0; i < a.length - 1; i++)` loops of maxAndMin, dawn and dusk. -/
def consecPairs : List ℤ → List (ℤ × ℤ)
  | a :: b :: rest => (a, b) :: consecPairs (b :: rest)
  | _ => []

/-- suncalc.maxAndMin: scan the coarse grid for derivative sign changes and
bisect each bracket; always returns [start] ++ interior extrema ++ [end]. -/
def maxAndMin (env : Env) (lat long : ℚ) (start dayEnd : ℤ) (ecef : List ℚ) :
    List ℤ :=
  let d := fun t => derivative env lat long t ecef
  let scan := (consecPairs (mamGrid start dayEnd)).map (fun p =>
    let d0 := d p.1
    let d1 := d p.2
    if d0 ≥ 0 ∧ d1 < 0 then [bisect (fun m => decide (d m ≥ 0)) p.1 p.2]
    else if d0 ≤ 0 ∧ d1 > 0 then [bisect (fun m => decide (d m ≤ 0)) p.1 p.2]
    else [])
  [start] ++ scan.flatten ++ [dayEnd]

/-- suncalc.dawn: for each consecutive extrema pair whose elevations bracket
the angle rising, bisect to the crossing and emit one event. -/
def dawn (env : Env) (lat long angle : ℚ) (type : String) (ecef : List ℚ)
    (maxMin : List ℤ) : List SunTime :=
  ((consecPairs maxMin).map (fun p =>
    let s0 := (env.elevAz lat long p.1 ecef).1
    let s1 := (env.elevAz lat long p.2 ecef).1
    if s0 ≤ angle ∧ s1 ≥ angle then
      let r := bisect (fun m => decide ((env.elevAz lat long m ecef).1 < angle)) p.1 p.2
      let ea := env.elevAz lat long r ecef
      [(⟨r, ea.1, ea.2, type⟩ : SunTime)]
    else [])).flatten

/-- suncalc.dusk: falling-direction counterpart of dawn. -/
def dusk (env : Env) (lat long angle : ℚ) (type : String) (ecef : List ℚ)
    (maxMin : List ℤ) : List SunTime :=
  ((consecPairs maxMin).map (fun p =>
    let s0 := (env.elevAz lat long p.1 ecef).1
    let s1 := (env.elevAz lat long p.2 ecef).1
    if s0 ≥ angle ∧ s1 ≤ angle then
      let r := bisect (fun m => decide (¬ ((env.elevAz lat long m ecef).1 < angle))) p.1 p.2
      let ea := env.elevAz lat long r ecef
      [(⟨r, ea.1, ea.2, type⟩ : SunTime)]
    else [])).flatten

def sunrise (env : Env) (lat long : ℚ) (ecef : List ℚ) (maxMin : List ℤ) : List SunTime :=
  dawn env lat long (-5/6) "Sunrise" ecef maxMin

def sunset (env : Env) (lat long : ℚ) (ecef : List ℚ) (maxMin : List ℤ) : List SunTime :=
  dusk env lat long (-5/6) "Sunset" ecef maxMin

def civilDawn (env : Env) (lat long : ℚ) (ecef : List ℚ) (maxMin : List ℤ) : List SunTime :=
  dawn env lat long (-6) "Civil Dawn" ecef maxMin

def civilDusk (env : Env) (lat long : ℚ) (ecef : List ℚ) (maxMin : List ℤ) : List SunTime :=
  dusk env lat long (-6) "Civil Dusk" ecef maxMin

def nauticalDawn (env : Env) (lat long : ℚ) (ecef : List ℚ) (maxMin : List ℤ) : List SunTime :=
  dawn env lat long (-12) "Nautical Dawn" ecef maxMin

def nauticalDusk (env : Env) (lat long : ℚ) (ecef : List ℚ) (maxMin : List ℤ) : List SunTime :=
  dusk env lat long (-12) "Nautical Dusk" ecef maxMin

def astroDawn (env : Env) (lat long : ℚ) (ecef : List ℚ) (maxMin : List ℤ) : List SunTime :=
  dawn env lat long (-18) "Astro Dawn" ecef maxMin

def astroDusk (env : Env) (lat long : ℚ) (ecef : List ℚ) (maxMin : List ℤ) : List SunTime :=
  dusk env lat long (-18) "Astro Dusk" ecef maxMin

/-- suncalc.allSunEvents: merge all per-day events and sort by time.
JS Array.prototype.sort is stable; a stable sort under a total preorder has
a unique result, so the stable List.insertionSort models it exactly. -/
def allSunEvents (env : Env) (lat long : ℚ) (start dayEnd : ℤ) (ecef : List ℚ) :
    List SunTime :=
  let maxMin := maxAndMin env lat long start dayEnd ecef
  let events :=
    solarMidnight env lat long start dayEnd ecef ++
    astroDawn env lat long ecef maxMin ++
    nauticalDawn env lat long ecef maxMin ++
    civilDawn env lat long ecef maxMin ++
    sunrise env lat long ecef maxMin ++
    solarNoon env lat long start dayEnd ecef ++
    sunset env lat long ecef maxMin ++
    civilDusk env lat long ecef maxMin ++
    nauticalDusk env lat long ecef maxMin ++
    astroDusk env lat long ecef maxMin
  List.insertionSort (fun a b => a.time ≤ b.time) events

/-- mathfuncs.TimeChange: one entry of the time-zone offset lookup table. -/
structure TimeChange where
  unix : ℤ
  offset : ℤ
  change : Bool
deriving Repr, DecidableEq

/-- mathfuncs.getOffsetFromTable: last offset whose change instant is <= unix,
scanning in order and stopping at the first later entry (0 if none applies). -/
def getOffsetAux (unix acc : ℤ) : List TimeChange → ℤ
  | [] => acc
  | c :: rest => if unix ≥ c.unix then getOffsetAux unix c.offset rest else acc

def getOffsetFromTable (unix : ℤ) (table : List TimeChange) : ℤ :=
  getOffsetAux unix 0 table

/-- SunTime.timeOfDay with a lookup table: mod (time + offset minutes, DAY_LENGTH).
mathfuncs.mod on integers with positive modulus is Int.emod. -/
def timeOfDay (st : SunTime) (table : List TimeChange) : ℤ :=
  (st.time + getOffsetFromTable st.time table * 60000).emod DAY_LENGTH

/-- The five interval buckets of suncalc.intervals:
day, civil twilight, nautical twilight, astronomical twilight, night. -/
structure Ints5 where
  day : List (ℤ × ℤ)
  civil : List (ℤ × ℤ)
  nautical : List (ℤ × ℤ)
  astro : List (ℤ × ℤ)
  night : List (ℤ × ℤ)
deriving Repr, DecidableEq

def emptyInts5 : Ints5 := ⟨[], [], [], [], []⟩

/-- Push a span into bucket i (matching `ints[i].push([t0, t1])`). -/
def pushAt (s : Ints5) (i : Option ℕ) (sp : ℤ × ℤ) : Ints5 :=
  match i with
  | some 0 => {s with day := s.day ++ [sp]}
  | some 1 => {s with civil := s.civil ++ [sp]}
  | some 2 => {s with nautical := s.nautical ++ [sp]}
  | some 3 => {s with astro := s.astro ++ [sp]}
  | some 4 => {s with night := s.night ++ [sp]}
  | _ => s

/-- The event-type dispatch used for the gap ending at an event of this type
(the first gap and all middle gaps of suncalc.intervals). -/
def gapRegime (etype : String) : Option ℕ :=
  if etype = "Sunset" then some 0
  else if etype = "Sunrise" ∨ etype = "Civil Dusk" then some 1
  else if etype = "Civil Dawn" ∨ etype = "Nautical Dusk" then some 2
  else if etype = "Nautical Dawn" ∨ etype = "Astro Dusk" then some 3
  else if etype = "Astro Dawn" then some 4
  else none

/-- The event-type dispatch used for the final gap (after the last event). -/
def lastRegime (etype : String) : Option ℕ :=
  if etype = "Sunrise" then some 0
  else if etype = "Civil Dawn" ∨ etype = "Sunset" then some 1
  else if etype = "Nautical Dawn" ∨ etype = "Civil Dusk" then some 2
  else if etype = "Astro Dawn" ∨ etype = "Nautical Dusk" then some 3
  else if etype = "Astro Dusk" then some 4
  else none

/-- The single-regime result of suncalc.intervals when no threshold crossing
occurs: classify the whole day by the current sun elevation. -/
def sunAngleRegime (sunAngle : ℚ) : Ints5 :=
  if sunAngle < -18 then ⟨[], [], [], [], [(0, DAY_LENGTH)]⟩
  else if sunAngle < -12 then ⟨[], [], [], [(0, DAY_LENGTH)], []⟩
  else if sunAngle < -6 then ⟨[], [], [(0, DAY_LENGTH)], [], []⟩
  else if sunAngle < -5/6 then ⟨[], [(0, DAY_LENGTH)], [], [], []⟩
  else ⟨[(0, DAY_LENGTH)], [], [], [], []⟩

/-- The middle loop of suncalc.intervals: assign each gap between consecutive
events to the bucket keyed by the type of the event closing the gap. -/
def middleGaps (table : List TimeChange) : List SunTime → Ints5 → Ints5
  | e0 :: e1 :: rest, acc =>
      middleGaps table (e1 :: rest)
        (pushAt acc (gapRegime e1.eventType) (timeOfDay e0 table, timeOfDay e1 table))
  | _, acc => acc

/-- suncalc.intervals.  Returns none exactly when the source would read
sunEvents[0] of an empty array (a TypeError in JS). -/
def intervals (sunEvents : List SunTime) (table : List TimeChange) : Option Ints5 :=
  let newSunEvents := sunEvents.filter
    (fun e => e.eventType ≠ "Solar Noon" ∧ e.eventType ≠ "Solar Midnight")
  match newSunEvents with
  | [] =>
    match sunEvents with
    | [] => none
    | e :: _ => some (sunAngleRegime e.solarElevation)
  | e0 :: rest =>
    let first := pushAt emptyInts5 (gapRegime e0.eventType) (0, timeOfDay e0 table)
    let mid := middleGaps table (e0 :: rest) first
    let lastE := (e0 :: rest).getLastD e0
    some (pushAt mid (lastRegime lastE.eventType) (timeOfDay lastE table, DAY_LENGTH))

/-- The ten event type tags produced by the event engine (SunTime.ts). -/
def eventTypeNames : List String :=
  ["Solar Midnight", "Astro Dawn", "Nautical Dawn", "Civil Dawn", "Sunrise",
   "Solar Noon", "Sunset", "Civil Dusk", "Nautical Dusk", "Astro Dusk"]

/-- Number of spans of one bucket list containing x (half-open). -/
def spanCount (l : List (ℤ × ℤ)) (x : ℤ) : ℕ :=
  l.countP (fun sp => decide (sp.1 ≤ x ∧ x < sp.2))

/-- Total number of spans over the five buckets containing x: the claim
"pairwise non-overlapping and covering exactly once" is countContain = 1. -/
def countContain (s : Ints5) (x : ℤ) : ℕ :=
  spanCount s.day x + spanCount s.civil x + spanCount s.nautical x +
  spanCount s.astro x + spanCount s.night x

/- ---- The SVG polygon tracer (intervalsToPolygon and its helpers). ----
Coordinates are rationals; the JS string keys `${x}:${y}` identify exactly
the snapped coordinate pairs, so keys are modelled as the pairs themselves,
and the insertion-ordered Map/Set are modelled as association lists. -/

/-- A 2-D point. -/
abbrev Pt := ℚ × ℚ

/-- A segment. -/
abbrev Seg := Pt × Pt

/-- snap: Math.round(v / 1e-6) * 1e-6; JS Math.round x = floor (x + 1/2). -/
def qsnap (v : ℚ) : ℚ := (⌊v * 1000000 + 1/2⌋ : ℤ) / 1000000

/-- segKey: the segment with endpoints put in lexicographic order. -/
def segKey (u v : Pt) : Seg :=
  if u.1 < v.1 ∨ (u.1 = v.1 ∧ u.2 ≤ v.2) then (u, v) else (v, u)

/-- The lexicographic span order of the normalizeSpans sort comparator. -/
def spanLe (u v : ℚ × ℚ) : Prop :=
  u.1 < v.1 ∨ (u.1 = v.1 ∧ u.2 ≤ v.2)

instance : DecidableRel spanLe := fun u v =>
  inferInstanceAs (Decidable (u.1 < v.1 ∨ (u.1 = v.1 ∧ u.2 ≤ v.2)))

/-- The merge loop of normalizeSpans, with the output kept reversed so that
the last pushed span is at the head. -/
def mergeSpans (acc : List (ℚ × ℚ)) : List (ℚ × ℚ) → List (ℚ × ℚ)
  | [] => acc
  | (a, b) :: rest =>
    match acc with
    | [] => mergeSpans [(a, b)] rest
    | (c, d) :: accTail =>
      if a > d then mergeSpans ((a, b) :: (c, d) :: accTail) rest
      else mergeSpans ((c, if b ≤ d then d else b) :: accTail) rest

/-- normalizeSpans: orient each span, sort lexicographically (a stable sort,
as JS sort is), coalesce overlaps. -/
def normalizeSpans (spans : List (ℚ × ℚ)) : List (ℚ × ℚ) :=
  let s := List.insertionSort spanLe
    (spans.map (fun p => if p.1 ≤ p.2 then (p.1, p.2) else (p.2, p.1)))
  (mergeSpans [] s).reverse

/-- The event order of xorSpans: ascending y, starts (+1) before ends (-1). -/
def evtLe (u v : ℚ × ℤ) : Prop :=
  u.1 < v.1 ∨ (u.1 = v.1 ∧ v.2 ≤ u.2)

instance : DecidableRel evtLe := fun u v =>
  inferInstanceAs (Decidable (u.1 < v.1 ∨ (u.1 = v.1 ∧ v.2 ≤ u.2)))

/-- The sweep of xorSpans: `(inside + d) & 1` with d = ±1 toggles parity. -/
def xorSweep (inside : Bool) (y0 : ℚ) (out : List (ℚ × ℚ)) :
    List (ℚ × ℤ) → List (ℚ × ℚ)
  | [] => out
  | (y, _) :: rest =>
    xorSweep (!inside) y (if inside then out ++ [(y0, y)] else out) rest

/-- xorSpans: symmetric difference of two disjoint sorted span lists by
event sweep. -/
def xorSpans (A B : List (ℚ × ℚ)) : List (ℚ × ℚ) :=
  let evts := (A.map (fun p => [((p.1 : ℚ), (1 : ℤ)), (p.2, -1)])).flatten ++
              (B.map (fun p => [((p.1 : ℚ), (1 : ℤ)), (p.2, -1)])).flatten
  xorSweep false 0 [] (List.insertionSort evtLe evts)

/-- Adjacency map: insertion-ordered association list point → neighbor list. -/
abbrev Adj := List (Pt × List Pt)

def adjGet (adj : Adj) (k : Pt) : List Pt :=
  ((adj.find? (fun e => decide (e.1 = k))).map (fun e => e.2)).getD []

def adjHas (adj : Adj) (k : Pt) : Bool := adj.any (fun e => decide (e.1 = k))

def adjPush (adj : Adj) (k : Pt) (v : Pt) : Adj :=
  adj.map (fun e => if e.1 = k then (e.1, e.2 ++ [v]) else e)

/-- addAdj: ensure both endpoints have entries, then record each endpoint as
the neighbor of the other (in this push order). -/
def addAdj (adj : Adj) (u v : Pt) : Adj :=
  let adj1 := if adjHas adj u then adj else adj ++ [(u, [])]
  let adj2 := if adjHas adj1 v then adj1 else adj1 ++ [(v, [])]
  adjPush (adjPush adj2 u v) v u

/-- The inner ring walk of intervalsToPolygon.  Fuel bounds the iteration
count (each non-final step marks a fresh edge as used, so segs.length + 2
always suffices); the source loop has no fuel but can only stop by breaking. -/
def walkLoop (adj : Adj) : ℕ → List Seg → List Pt → Pt → Pt → Pt →
    List Pt × List Seg
  | 0, used, poly, _, _, _ => (poly, used)
  | fuel + 1, used, poly, first, prev, curr =>
    let poly := poly ++ [curr]
    match (adjGet adj curr).find?
        (fun cand => decide (cand ≠ prev ∧ ¬ (segKey curr cand ∈ used))) with
    | none => (poly, used)
    | some nxt =>
      let used := used ++ [segKey curr nxt]
      if nxt = first then (poly, used)
      else walkLoop adj fuel used poly first curr nxt

/-- The outer loop of intervalsToPolygon: seed a walk at every unused edge
and keep the resulting ring only when it has at least 4 points. -/
def tracePolys (adj : Adj) (fuel : ℕ) :
    List Seg → List Seg → List (List Pt) → List (List Pt) × List Seg
  | [], used, polys => (polys, used)
  | (a, b) :: rest, used, polys =>
    let k := segKey a b
    if k ∈ used then tracePolys adj fuel rest used polys
    else
      let used1 := used ++ [k]
      let (poly, used2) := walkLoop adj fuel used1 [a] a a b
      let polys1 := if poly.length ≥ 4 then polys ++ [poly] else polys
      tracePolys adj fuel rest used2 polys1

/-- intervalsToPolygon: build horizontal caps and vertical symmetric-difference
segments on the snapped grid, then stitch unused edges into closed rings. -/
def intervalsToPolygon (cols0 : List (List (ℚ × ℚ))) : List (List Pt) :=
  let W := cols0.length
  let cols := cols0.map normalizeSpans
  let horizontal : List Seg := ((List.range W).map (fun x =>
    ((cols.getD x []).map (fun ab =>
      [(((x : ℚ), ab.1), ((x : ℚ) + 1, ab.1)),
       (((x : ℚ), ab.2), ((x : ℚ) + 1, ab.2))])).flatten)).flatten
  let vertical : List Seg := ((List.range (W + 1)).map (fun x =>
    let L := if 0 < x then cols.getD (x - 1) [] else []
    let R := if x < W then cols.getD x [] else []
    (xorSpans L R).map (fun ab => (((x : ℚ), ab.1), ((x : ℚ), ab.2))))).flatten
  let segs := (vertical ++ horizontal).map (fun s =>
    ((qsnap s.1.1, qsnap s.1.2), (qsnap s.2.1, qsnap s.2.2)))
  let adj := segs.foldl (fun a s => addAdj a s.1 s.2) []
  (tracePolys adj (segs.length + 2) segs [] []).1

/- ---- suncalc.refraction over the reals. ---- -/

/-- The branch of suncalc.refraction for elevations at or below -5/6 degrees
(cotangent smoothing). -/
noncomputable def refractionBelow (elev : ℝ) : ℝ :=
  -0.0089931 / Real.tan (elev * (Real.pi / 180))

/-- The branch of suncalc.refraction for elevations above -5/6 degrees
(Meeus formula 15.4). -/
noncomputable def refractionAbove (elev : ℝ) : ℝ :=
  (1.02 / Real.tan ((elev + 10.3 / (elev + 5.11)) * (Real.pi / 180)) + 0.001927) / 60

/-- suncalc.refraction. -/
noncomputable def refraction (elev : ℝ) : ℝ :=
  if elev ≤ -5/6 then refractionBelow elev else refractionAbove elev

/-- suncalc.refract. -/
noncomputable def refract (elev : ℝ) : ℝ := elev + refraction elev

/- ---- Concrete test fixtures used to instantiate the abstract position
model in witnesses: a tent-shaped elevation peaking at local noon and a
vanishing equation of time. ---- -/

/-- A strictly unimodal test elevation with peak at t = 43200000 ms. -/
def testElev (t : ℤ) : ℚ := 50 - |(t : ℚ) - 43200000| / 500000

/-- A concrete environment: zero equation of time, tent elevation. -/
def testEnv : Env := ⟨fun _ => 0, fun _ _ t _ => (testElev t, 0)⟩

/-- C1: for every day window and longitude, solarNoon emits exactly two
SolarNoon events when st00 > 600 and st00 <= 720 and st24 > 720 and
st24 < 840, zero when st00 > 720 and st00 < 840 and st24 > 600 and
st24 <= 720, and exactly one in every other case, with exactly these
tight boundary inequalities on the apparent solar times at day start and
day end; every emitted event is tagged "Solar Noon". -/
theorem solarNoon_case_split (env : Env) (lat long : ℚ) (start dayEnd : ℤ)
    (ecef : List ℚ) :
    (solarNoon env lat long start dayEnd ecef).length =
      (if solarTime env long start > 600 ∧ solarTime env long start ≤ 720 ∧
          solarTime env long dayEnd > 720 ∧ solarTime env long dayEnd < 840 then 2
       else if solarTime env long start > 720 ∧ solarTime env long start < 840 ∧
          solarTime env long dayEnd > 600 ∧ solarTime env long dayEnd ≤ 720 then 0
       else 1) ∧
    (solarNoon env lat long start dayEnd ecef).map SunTime.eventType =
      List.replicate (solarNoon env lat long start dayEnd ecef).length "Solar Noon" := by
  simp only [solarNoon]
  split_ifs <;> simp_all [List.replicate]

/-- C2: solarMidnight performs the same 3-way case split as solarNoon at
threshold 0/1440: exactly two SolarMidnight events when st00 > 1320 and
st24 < 120, zero when st00 < 120 and st24 > 1320, and exactly one
otherwise; every emitted event is tagged "Solar Midnight". -/
theorem solarMidnight_case_split (env : Env) (lat long : ℚ) (start dayEnd : ℤ)
    (ecef : List ℚ) :
    (solarMidnight env lat long start dayEnd ecef).length =
      (if solarTime env long start > 1320 ∧ solarTime env long dayEnd < 120 then 2
       else if solarTime env long start < 120 ∧ solarTime env long dayEnd > 1320 then 0
       else 1) ∧
    (solarMidnight env lat long start dayEnd ecef).map SunTime.eventType =
      List.replicate (solarMidnight env lat long start dayEnd ecef).length
        "Solar Midnight" := by
  simp only [solarMidnight]
  split_ifs <;> simp_all [List.replicate]

/-- C3 counterexample: the claim says the derivative is sampled at 9 points
giving 8 search intervals; on the concrete day window [0, 86400000) the
coarse grid of maxAndMin has 7 points and 6 consecutive search intervals. -/
theorem mamGrid_not_nine_points :
    (mamGrid 0 86400000).length ≠ 9 ∧
    (consecPairs (mamGrid 0 86400000)).length ≠ 8 := by
  constructor <;> decide

/-- C3 amended: maxAndMin evaluates the central-difference (±500 ms)
derivative of elevation on the grid consisting of the day start, five
evenly spaced 4-hour checkpoints and the day end — 7 sample points, so the
sign-change scan runs over 6 consecutive search intervals. -/
theorem mamGrid_seven_points (env : Env) (lat long : ℚ) (start dayEnd : ℤ)
    (ecef : List ℚ) (t : ℤ) :
    mamGrid start dayEnd =
      [start, start + 14400000, start + 28800000, start + 43200000,
       start + 57600000, start + 72000000, dayEnd] ∧
    (mamGrid start dayEnd).length = 7 ∧
    (consecPairs (mamGrid start dayEnd)).length = 6 ∧
    derivative env lat long t ecef =
      (env.elevAz lat long (t + 500) ecef).1 -
      (env.elevAz lat long (t - 500) ecef).1 := by
  refine ⟨rfl, rfl, rfl, rfl⟩

/-- One bisection step is the identity once the bracket is at most 1 ms wide. -/
theorem bisectStep_fixed (Q : ℤ → Bool) (s : ℤ × ℤ) (h : s.2 - s.1 ≤ 1) :
    bisectStep Q s = s := by
  unfold bisectStep
  rw [if_pos h]

/-- Each non-final bisection step at least halves the bracket width. -/
theorem bisectStep_halves (Q : ℤ → Bool) (s : ℤ × ℤ) (h : 1 < s.2 - s.1) :
    2 * ((bisectStep Q s).2 - (bisectStep Q s).1) ≤ s.2 - s.1 + 1 := by
  unfold bisectStep
  rw [if_neg (by omega)]
  have hm : (s.1 + s.2).fdiv 2 = (s.1 + s.2) / 2 := Int.fdiv_eq_ediv _ (by omega)
  dsimp only
  rw [hm]
  split <;> dsimp only <;> omega

/-- After (t1 - t0).toNat steps the bracket is at most 1 ms wide. -/
theorem bisect_iter_done (Q : ℤ → Bool) :
    ∀ (n : ℕ) (s : ℤ × ℤ), s.2 - s.1 ≤ (n : ℤ) →
      ((bisectStep Q)^[n] s).2 - ((bisectStep Q)^[n] s).1 ≤ 1 := by
  intro n
  induction n with
  | zero => intro s hs; simpa using le_trans hs (by norm_num)
  | succ n ih =>
    intro s hs
    by_cases h1 : s.2 - s.1 ≤ 1
    · rw [Function.iterate_fixed (bisectStep_fixed Q s h1)]
      exact h1
    · rw [Function.iterate_succ_apply]
      apply ih
      have hh := bisectStep_halves Q s (by omega)
      have hs2 : s.2 - s.1 ≤ (n : ℤ) + 1 := by exact_mod_cast hs
      omega

/-- C8: every bisection loop in the event engine (the shared loop shape of
maxAndMin, dawn and dusk) halves its integer-millisecond bracket on every
non-final step, and starting from any bracket (t0, t1) it reaches the exit
condition t1 - t0 <= 1 within (t1 - t0) steps; bisect is by definition the
loop run for that many steps, so maxAndMin, dawn and dusk always return. -/
theorem bisection_loops_terminate :
    (∀ (Q : ℤ → Bool) (s : ℤ × ℤ), 1 < s.2 - s.1 →
      2 * ((bisectStep Q s).2 - (bisectStep Q s).1) ≤ s.2 - s.1 + 1) ∧
    (∀ (Q : ℤ → Bool) (t0 t1 : ℤ),
      ((bisectStep Q)^[(t1 - t0).toNat] (t0, t1)).2 -
        ((bisectStep Q)^[(t1 - t0).toNat] (t0, t1)).1 ≤ 1) ∧
    (∀ (Q : ℤ → Bool) (t0 t1 : ℤ),
      bisect Q t0 t1 = ((bisectStep Q)^[(t1 - t0).toNat] (t0, t1)).1) := by
  refine ⟨bisectStep_halves, ?_, fun _ _ _ => rfl⟩
  intro Q t0 t1
  apply bisect_iter_done
  simp only []
  omega

/-- C8 witness: the halving and termination statements instantiated on the
concrete bracket (0, 4). -/
theorem bisection_loops_terminate_witness :
    (1 : ℤ) < (((0 : ℤ), (4 : ℤ)) : ℤ × ℤ).2 - (((0 : ℤ), (4 : ℤ)) : ℤ × ℤ).1 ∧
    2 * ((bisectStep (fun _ => true) ((0 : ℤ), (4 : ℤ))).2 -
      (bisectStep (fun _ => true) ((0 : ℤ), (4 : ℤ))).1) ≤
      (((0 : ℤ), (4 : ℤ)) : ℤ × ℤ).2 - (((0 : ℤ), (4 : ℤ)) : ℤ × ℤ).1 + 1 :=
  ⟨by norm_num,
   bisection_loops_terminate.1 (fun _ => true) ((0 : ℤ), (4 : ℤ)) (by norm_num)⟩

/-- If solarNoon returns no event, the zero-noon branch condition held. -/
theorem solarNoon_eq_nil (env : Env) (lat long : ℚ) (start dayEnd : ℤ)
    (ecef : List ℚ) (h : solarNoon env lat long start dayEnd ecef = []) :
    solarTime env long start > 720 ∧ solarTime env long start < 840 ∧
    solarTime env long dayEnd > 600 ∧ solarTime env long dayEnd ≤ 720 := by
  revert h
  simp only [solarNoon]
  split_ifs with h1 h2 <;> simp_all

/-- If solarMidnight returns no event, the zero-midnight branch condition held. -/
theorem solarMidnight_eq_nil (env : Env) (lat long : ℚ) (start dayEnd : ℤ)
    (ecef : List ℚ) (h : solarMidnight env lat long start dayEnd ecef = []) :
    solarTime env long start < 120 ∧ solarTime env long dayEnd > 1320 := by
  revert h
  simp only [solarMidnight]
  split_ifs with h1 h2 <;> simp_all

/-- The zero-noon and zero-midnight conditions are mutually exclusive, so
allSunEvents always returns at least one event. -/
theorem allSunEvents_ne_nil (env : Env) (lat long : ℚ) (start dayEnd : ℤ)
    (ecef : List ℚ) :
    allSunEvents env lat long start dayEnd ecef ≠ [] := by
  have hx : ∃ x, x ∈ solarMidnight env lat long start dayEnd ecef ∨
      x ∈ solarNoon env lat long start dayEnd ecef := by
    by_cases hn : solarNoon env lat long start dayEnd ecef = []
    · have h1 := solarNoon_eq_nil env lat long start dayEnd ecef hn
      have hm : solarMidnight env lat long start dayEnd ecef ≠ [] := by
        intro hm
        have h2 := solarMidnight_eq_nil env lat long start dayEnd ecef hm
        linarith [h1.1, h2.1]
      obtain ⟨x, hmx⟩ := List.exists_mem_of_ne_nil _ hm
      exact ⟨x, Or.inl hmx⟩
    · obtain ⟨x, hnx⟩ := List.exists_mem_of_ne_nil _ hn
      exact ⟨x, Or.inr hnx⟩
  obtain ⟨x, hx⟩ := hx
  have hmem : x ∈ allSunEvents env lat long start dayEnd ecef := by
    show x ∈ List.insertionSort _ _
    refine (List.perm_insertionSort _ _).mem_iff.mpr ?_
    rcases hx with hx | hx <;> simp [hx]
  exact List.ne_nil_of_mem hmem

/-- intervals never fails on a non-empty event series. -/
theorem intervals_isSome_of_ne_nil (es : List SunTime) (table : List TimeChange)
    (h : es ≠ []) : (intervals es table).isSome = true := by
  match es, h with
  | e :: tl, _ =>
    simp only [intervals]
    cases hf : (e :: tl).filter
        (fun x => decide (x.eventType ≠ "Solar Noon" ∧ x.eventType ≠ "Solar Midnight")) with
    | nil => simp [hf]
    | cons a l => simp [hf]

/-- C10: the zero-noon condition (st00 in (720, 840), st24 in (600, 720]) and
the zero-midnight condition (st00 < 120, st24 > 1320) are mutually exclusive,
so allSunEvents always emits at least one SolarNoon or SolarMidnight event;
consequently the read of sunEvents[0].solarElevation in the empty-crossing
branch of intervals never indexes out of bounds on allSunEvents output. -/
theorem allSunEvents_nonempty_intervals_safe (env : Env) (lat long : ℚ)
    (start dayEnd : ℤ) (ecef : List ℚ) (table : List TimeChange) :
    allSunEvents env lat long start dayEnd ecef ≠ [] ∧
    (intervals (allSunEvents env lat long start dayEnd ecef) table).isSome = true :=
  ⟨allSunEvents_ne_nil env lat long start dayEnd ecef,
   intervals_isSome_of_ne_nil _ table (allSunEvents_ne_nil env lat long start dayEnd ecef)⟩

/-- Every ring accumulated by tracePolys passed the length-at-least-4 guard. -/
theorem tracePolys_min_length (adj : Adj) (fuel : ℕ) :
    ∀ (segs : List Seg) (used : List Seg) (polys : List (List Pt)),
      (∀ p ∈ polys, 4 ≤ p.length) →
      ∀ p ∈ (tracePolys adj fuel segs used polys).1, 4 ≤ p.length := by
  intro segs
  induction segs with
  | nil => intro used polys hp p hmem; exact hp p hmem
  | cons s rest ih =>
    intro used polys hp p hmem
    obtain ⟨a, b⟩ := s
    rw [tracePolys] at hmem
    by_cases hk : segKey a b ∈ used
    · rw [if_pos hk] at hmem
      exact ih used polys hp p hmem
    · rw [if_neg hk] at hmem
      refine ih _ _ ?_ p hmem
      intro q hq
      by_cases hlen : (walkLoop adj fuel (used ++ [segKey a b]) [a] a a b).1.length ≥ 4
      · rw [if_pos hlen] at hq
        rcases List.mem_append.mp hq with hq | hq
        · exact hp q hq
        · rw [List.mem_singleton.mp hq]
          exact hlen
      · rw [if_neg hlen] at hq
        exact hp q hq

/-- C9: every polygon returned by intervalsToPolygon contains at least 4
points; rings with fewer points are discarded by the final guard of the
edge walk and never appear in the output, for every input column list. -/
theorem intervalsToPolygon_min_length (cols0 : List (List (ℚ × ℚ)))
    (poly : List Pt) (h : poly ∈ intervalsToPolygon cols0) : 4 ≤ poly.length := by
  revert h
  simp only [intervalsToPolygon]
  intro h
  exact tracePolys_min_length _ _ _ _ _ (by intro p hp; cases hp) poly h

/-- C9 witness: the one-column input [[(0, 10)]] produces the square ring
with exactly 4 points, and the theorem applies to it. -/
theorem intervalsToPolygon_min_length_witness :
    [((0 : ℚ), (0 : ℚ)), (0, 10), (1, 10), (1, 0)] ∈
      intervalsToPolygon [[((0 : ℚ), (10 : ℚ))]] ∧
    4 ≤ ([((0 : ℚ), (0 : ℚ)), (0, 10), (1, 10), (1, 0)] : List Pt).length := by
  have heval : intervalsToPolygon [[((0 : ℚ), (10 : ℚ))]] =
      [[((0 : ℚ), (0 : ℚ)), (0, 10), (1, 10), (1, 0)]] := by
    have h2 : ∀ segs2 : List Seg,
        segs2 = [(((0 : ℚ), (0 : ℚ)), ((0 : ℚ), (10 : ℚ))),
                 (((1 : ℚ), (0 : ℚ)), ((1 : ℚ), (10 : ℚ))),
                 (((0 : ℚ), (0 : ℚ)), ((1 : ℚ), (0 : ℚ))),
                 (((0 : ℚ), (10 : ℚ)), ((1 : ℚ), (10 : ℚ)))] →
        (tracePolys (segs2.foldl (fun a s => addAdj a s.1 s.2) [])
          (segs2.length + 2) segs2 [] []).1 =
          [[((0 : ℚ), (0 : ℚ)), (0, 10), (1, 10), (1, 0)]] := by
      rintro _ rfl
      decide
    simp only [intervalsToPolygon]
    exact h2 _ (by norm_num [normalizeSpans, mergeSpans, spanLe, xorSpans, xorSweep, evtLe,
      qsnap, List.insertionSort, List.orderedInsert, List.range_succ, Function.comp])
  have hmem : [((0 : ℚ), (0 : ℚ)), (0, 10), (1, 10), (1, 0)] ∈
      intervalsToPolygon [[((0 : ℚ), (10 : ℚ))]] := by
    rw [heval]
    exact List.mem_singleton.mpr rfl
  exact ⟨hmem, intervalsToPolygon_min_length [[((0 : ℚ), (10 : ℚ))]] _ hmem⟩

/- ---- Helper lemmas for the C6 interval partition property. ---- -/

/-- Pushing a span into a bucket k <= 4 adds exactly its indicator to the
total containment count. -/
theorem countContain_pushAt (s : Ints5) (k : ℕ) (hk : k ≤ 4) (sp : ℤ × ℤ) (x : ℤ) :
    countContain (pushAt s (some k) sp) x =
      countContain s x + (if sp.1 ≤ x ∧ x < sp.2 then 1 else 0) := by
  interval_cases k <;>
    simp [pushAt, countContain, spanCount, List.countP_append, List.countP_cons] <;>
    split_ifs <;> omega

/-- In a sorted chain the head is at most the last element. -/
theorem chain_le_getLastD (d : ℤ) :
    ∀ (l : List ℤ) (a : ℤ), List.Chain' (· ≤ ·) (a :: l) → a ≤ (a :: l).getLastD d := by
  intro l
  induction l with
  | nil => intro a _; simp
  | cons b rest ih =>
    intro a hch
    have hab : a ≤ b := (List.chain'_cons.mp hch).1
    have hb := ih b (List.chain'_cons.mp hch).2
    simpa using le_trans hab (by simpa using hb)

/-- No consecutive pair of a sorted chain contains a point left of its head. -/
theorem countP_consecPairs_lt (x : ℤ) :
    ∀ (c : List ℤ) (b : ℤ), List.Chain' (· ≤ ·) (b :: c) → x < b →
      (consecPairs (b :: c)).countP (fun sp => decide (sp.1 ≤ x ∧ x < sp.2)) = 0 := by
  intro c
  induction c with
  | nil => intro b _ _; rfl
  | cons b2 rest ih =>
    intro b hch hxb
    have hb : b ≤ b2 := (List.chain'_cons.mp hch).1
    have h0 := ih b2 (List.chain'_cons.mp hch).2 (by omega)
    rw [show consecPairs (b :: b2 :: rest) = (b, b2) :: consecPairs (b2 :: rest) from rfl,
      List.countP_cons, h0]
    simp [show ¬(b ≤ x ∧ x < b2) from fun h => absurd h.1 (by omega)]

/-- No consecutive pair of a sorted chain contains a point at or right of
its last element. -/
theorem countP_consecPairs_ge (x d : ℤ) :
    ∀ (c : List ℤ) (a : ℤ), List.Chain' (· ≤ ·) (a :: c) → (a :: c).getLastD d ≤ x →
      (consecPairs (a :: c)).countP (fun sp => decide (sp.1 ≤ x ∧ x < sp.2)) = 0 := by
  intro c
  induction c with
  | nil => intro a _ _; rfl
  | cons b rest ih =>
    intro a hch hlast
    have hch2 := (List.chain'_cons.mp hch).2
    have hlast2 : (b :: rest).getLastD d ≤ x := by simpa using hlast
    have hbx : b ≤ x := le_trans (chain_le_getLastD d rest b hch2) hlast2
    have h0 := ih b hch2 hlast2
    rw [show consecPairs (a :: b :: rest) = (a, b) :: consecPairs (b :: rest) from rfl,
      List.countP_cons, h0]
    simp [show ¬(a ≤ x ∧ x < b) from fun h => absurd h.2 (by omega)]

/-- A point strictly between the head and the last element of a sorted chain
lies in exactly one consecutive pair. -/
theorem countP_consecPairs_one (x d : ℤ) :
    ∀ (c : List ℤ) (a : ℤ), List.Chain' (· ≤ ·) (a :: c) → a ≤ x →
      x < (a :: c).getLastD d →
      (consecPairs (a :: c)).countP (fun sp => decide (sp.1 ≤ x ∧ x < sp.2)) = 1 := by
  intro c
  induction c with
  | nil =>
    intro a _ hax hxl
    simp at hxl
    omega
  | cons b rest ih =>
    intro a hch hax hxl
    have hab : a ≤ b := (List.chain'_cons.mp hch).1
    have hch2 := (List.chain'_cons.mp hch).2
    have hxl2 : x < (b :: rest).getLastD d := by simpa using hxl
    rw [show consecPairs (a :: b :: rest) = (a, b) :: consecPairs (b :: rest) from rfl,
      List.countP_cons]
    by_cases hxb : x < b
    · rw [countP_consecPairs_lt x rest b hch2 hxb]
      simp [show a ≤ x ∧ x < b from ⟨hax, hxb⟩]
    · rw [ih b hch2 (by omega) hxl2]
      simp [show ¬(a ≤ x ∧ x < b) from fun h => absurd h.2 hxb]

/-- The middle loop adds exactly the consecutive-gap spans to the count. -/
theorem countContain_middleGaps (table : List TimeChange) (x : ℤ) :
    ∀ (es : List SunTime) (acc : Ints5),
      (∀ e ∈ es, ∃ k, k ≤ 4 ∧ gapRegime e.eventType = some k) →
      countContain (middleGaps table es acc) x =
        countContain acc x +
        (consecPairs (es.map (fun e => timeOfDay e table))).countP
          (fun sp => decide (sp.1 ≤ x ∧ x < sp.2)) := by
  intro es
  induction es with
  | nil => intro acc _; simp [middleGaps, consecPairs]
  | cons e0 tl ih =>
    cases tl with
    | nil => intro acc _; simp [middleGaps, consecPairs]
    | cons e1 rest =>
      intro acc hval
      obtain ⟨k, hk, hsome⟩ := hval e1 (by simp)
      rw [show middleGaps table (e0 :: e1 :: rest) acc =
            middleGaps table (e1 :: rest)
              (pushAt acc (gapRegime e1.eventType)
                (timeOfDay e0 table, timeOfDay e1 table)) from rfl]
      rw [ih _ (fun e he => hval e (List.mem_cons_of_mem e0 he))]
      rw [hsome, countContain_pushAt _ k hk]
      rw [show (e0 :: e1 :: rest).map (fun e => timeOfDay e table) =
            timeOfDay e0 table :: (e1 :: rest).map (fun e => timeOfDay e table) from rfl]
      rw [show consecPairs (timeOfDay e0 table :: (e1 :: rest).map (fun e => timeOfDay e table)) =
            (timeOfDay e0 table, ((e1 :: rest).map (fun e => timeOfDay e table)).headD 0) ::
              consecPairs ((e1 :: rest).map (fun e => timeOfDay e table)) from rfl]
      rw [List.countP_cons]
      simp only [List.map_cons, List.headD_cons, decide_eq_true_eq]
      split_ifs <;> omega

/-- timeOfDay always lands in [0, DAY_LENGTH). -/
theorem timeOfDay_mem (st : SunTime) (table : List TimeChange) :
    0 ≤ timeOfDay st table ∧ timeOfDay st table < DAY_LENGTH := by
  unfold timeOfDay
  constructor
  · exact Int.emod_nonneg _ (by norm_num [DAY_LENGTH])
  · exact Int.emod_lt_of_pos _ (by norm_num [DAY_LENGTH])

/-- A valid non-noon, non-midnight event type always dispatches to a bucket
in the first/middle gap table. -/
theorem gapRegime_valid (t : String) (ht : t ∈ eventTypeNames)
    (hn : t ≠ "Solar Noon") (hm : t ≠ "Solar Midnight") :
    ∃ k, k ≤ 4 ∧ gapRegime t = some k := by
  simp only [eventTypeNames, List.mem_cons, List.mem_singleton] at ht
  rcases ht with rfl | rfl | rfl | rfl | rfl | rfl | rfl | rfl | rfl | rfl | h
  · exact absurd rfl hm
  · exact ⟨4, by omega, rfl⟩
  · exact ⟨3, by omega, rfl⟩
  · exact ⟨2, by omega, rfl⟩
  · exact ⟨1, by omega, rfl⟩
  · exact absurd rfl hn
  · exact ⟨0, by omega, rfl⟩
  · exact ⟨1, by omega, rfl⟩
  · exact ⟨2, by omega, rfl⟩
  · exact ⟨3, by omega, rfl⟩
  · exact absurd h (List.not_mem_nil t)

/-- A valid non-noon, non-midnight event type always dispatches to a bucket
in the final gap table. -/
theorem lastRegime_valid (t : String) (ht : t ∈ eventTypeNames)
    (hn : t ≠ "Solar Noon") (hm : t ≠ "Solar Midnight") :
    ∃ k, k ≤ 4 ∧ lastRegime t = some k := by
  simp only [eventTypeNames, List.mem_cons, List.mem_singleton] at ht
  rcases ht with rfl | rfl | rfl | rfl | rfl | rfl | rfl | rfl | rfl | rfl | h
  · exact absurd rfl hm
  · exact ⟨3, by omega, rfl⟩
  · exact ⟨2, by omega, rfl⟩
  · exact ⟨1, by omega, rfl⟩
  · exact ⟨0, by omega, rfl⟩
  · exact absurd rfl hn
  · exact ⟨1, by omega, rfl⟩
  · exact ⟨2, by omega, rfl⟩
  · exact ⟨3, by omega, rfl⟩
  · exact ⟨4, by omega, rfl⟩
  · exact absurd h (List.not_mem_nil t)

/-- The last element with default is a member of a nonempty list. -/
theorem getLastD_mem : ∀ (l : List SunTime), l ≠ [] → ∀ (d : SunTime), l.getLastD d ∈ l := by
  intro l
  induction l with
  | nil => intro h; exact absurd rfl h
  | cons a tl ih =>
    intro _ d
    cases tl with
    | nil => simp
    | cons b rest =>
      rw [List.getLastD_cons]
      exact List.mem_cons_of_mem a (ih (by simp) a)

/-- Mapping commutes with getLastD. -/
theorem map_getLastD (f : SunTime → ℤ) :
    ∀ (l : List SunTime) (d : SunTime), f (l.getLastD d) = (l.map f).getLastD (f d) := by
  intro l
  induction l with
  | nil => intro d; rfl
  | cons a tl ih =>
    intro d
    cases tl with
    | nil => rfl
    | cons b rest => simpa using ih a

/-- C6: for every non-empty event series with valid event tags whose
per-day times are ascending, the five lists returned by intervals contain
pairwise non-overlapping spans whose union covers [0, 86400000) exactly
once: every x in that range lies in exactly one span. -/
theorem intervals_partition (sunEvents : List SunTime) (table : List TimeChange)
    (hne : sunEvents ≠ [])
    (htypes : ∀ e ∈ sunEvents, e.eventType ∈ eventTypeNames)
    (hchain : List.Chain' (· ≤ ·)
      ((sunEvents.filter
        (fun e => e.eventType ≠ "Solar Noon" ∧ e.eventType ≠ "Solar Midnight")).map
        (fun e => timeOfDay e table))) :
    ∃ out, intervals sunEvents table = some out ∧
      ∀ x : ℤ, 0 ≤ x → x < DAY_LENGTH → countContain out x = 1 := by
  cases hf : sunEvents.filter
      (fun e => e.eventType ≠ "Solar Noon" ∧ e.eventType ≠ "Solar Midnight") with
  | nil =>
    cases sunEvents with
    | nil => exact absurd rfl hne
    | cons e tl =>
      refine ⟨sunAngleRegime e.solarElevation, ?_, ?_⟩
      · simp only [intervals, hf]
      · intro x hx0 hxD
        unfold sunAngleRegime
        split_ifs <;>
          simp [countContain, spanCount, List.countP_cons, decide_eq_true_eq, hx0, hxD]
  | cons e0 rest =>
    have hsub : ∀ e ∈ e0 :: rest, e.eventType ∈ eventTypeNames ∧
        e.eventType ≠ "Solar Noon" ∧ e.eventType ≠ "Solar Midnight" := by
      intro e he
      have he2 : e ∈ sunEvents.filter
          (fun e => e.eventType ≠ "Solar Noon" ∧ e.eventType ≠ "Solar Midnight") := by
        rw [hf]; exact he
      refine ⟨htypes e (List.mem_of_mem_filter he2), ?_⟩
      have := List.of_mem_filter he2
      simpa using this
    have hev : intervals sunEvents table = some
        (pushAt
          (middleGaps table (e0 :: rest)
            (pushAt emptyInts5 (gapRegime e0.eventType) (0, timeOfDay e0 table)))
          (lastRegime ((e0 :: rest).getLastD e0).eventType)
          (timeOfDay ((e0 :: rest).getLastD e0) table, DAY_LENGTH)) := by
      simp only [intervals, hf]
    refine ⟨_, hev, fun x hx0 hxD => ?_⟩
    have hlastmem := getLastD_mem (e0 :: rest) (by simp) e0
    obtain ⟨hlty, hln, hlm⟩ := hsub _ hlastmem
    obtain ⟨kl, hkl, hlsome⟩ := lastRegime_valid _ hlty hln hlm
    obtain ⟨h0ty, h0n, h0m⟩ := hsub e0 (by simp)
    obtain ⟨k0, hk0, h0some⟩ := gapRegime_valid _ h0ty h0n h0m
    rw [hlsome, countContain_pushAt _ kl hkl]
    rw [countContain_middleGaps table x (e0 :: rest) _ (by
      intro e he
      obtain ⟨ht, hn, hm⟩ := hsub e he
      exact gapRegime_valid _ ht hn hm)]
    rw [h0some, countContain_pushAt _ k0 hk0]
    have hempty : countContain emptyInts5 x = 0 := rfl
    rw [hempty]
    rw [hf] at hchain
    rw [List.map_cons] at hchain
    have htE : timeOfDay ((e0 :: rest).getLastD e0) table =
        (timeOfDay e0 table :: rest.map (fun e => timeOfDay e table)).getLastD
          (timeOfDay e0 table) := by
      have := map_getLastD (fun e => timeOfDay e table) (e0 :: rest) e0
      simpa using this
    rw [List.map_cons]
    have hgeD : (timeOfDay e0 table :: rest.map (fun e => timeOfDay e table)).getLastD
        (timeOfDay e0 table) < DAY_LENGTH := by
      rw [← htE]
      exact (timeOfDay_mem _ table).2
    by_cases hA : x < timeOfDay e0 table
    · rw [countP_consecPairs_lt x (rest.map (fun e => timeOfDay e table))
        (timeOfDay e0 table) hchain hA]
      have hle := chain_le_getLastD (timeOfDay e0 table)
        (rest.map (fun e => timeOfDay e table)) (timeOfDay e0 table) hchain
      rw [htE]
      split_ifs <;> omega
    · by_cases hB : x < timeOfDay ((e0 :: rest).getLastD e0) table
      · rw [countP_consecPairs_one x (timeOfDay e0 table)
          (rest.map (fun e => timeOfDay e table)) (timeOfDay e0 table) hchain
          (by omega) (by rw [← htE]; exact hB)]
        rw [htE]
        split_ifs <;> omega
      · rw [countP_consecPairs_ge x (timeOfDay e0 table)
          (rest.map (fun e => timeOfDay e table)) (timeOfDay e0 table) hchain
          (by rw [← htE]; omega)]
        have hle := chain_le_getLastD (timeOfDay e0 table)
          (rest.map (fun e => timeOfDay e table)) (timeOfDay e0 table) hchain
        rw [htE]
        split_ifs <;> omega

/-- C6 witness: a concrete sunrise/sunset day (UTC offset table empty). -/
theorem intervals_partition_witness :
    ∃ out, intervals
        [⟨21600000, 10, 90, "Sunrise"⟩, ⟨64800000, 10, 270, "Sunset"⟩] [] = some out ∧
      ∀ x : ℤ, 0 ≤ x → x < DAY_LENGTH → countContain out x = 1 :=
  intervals_partition
    [⟨21600000, 10, 90, "Sunrise"⟩, ⟨64800000, 10, 270, "Sunset"⟩] []
    (by decide) (by decide)
    (by
      have h1 : ¬("Sunrise" = "Solar Noon") := by decide
      have h2 : ¬("Sunrise" = "Solar Midnight") := by decide
      have h3 : ¬("Sunset" = "Solar Noon") := by decide
      have h4 : ¬("Sunset" = "Solar Midnight") := by decide
      norm_num [timeOfDay, getOffsetFromTable, getOffsetAux, List.chain'_cons,
        List.filter_cons, DAY_LENGTH, h1, h2, h3, h4])

/- ---- Helper lemmas for C5: bisection bracketing. ---- -/

/-- mfmod lands in [0, y) for positive y. -/
theorem mfmod_bounds (x : ℚ) : 0 ≤ mfmod x 1440 ∧ mfmod x 1440 < 1440 := by
  unfold mfmod
  constructor
  · have h := Int.floor_le (x / 1440)
    have : (1440 : ℚ) * ⌊x / 1440⌋ ≤ 1440 * (x / 1440) := by
      have h1440 : (0 : ℚ) < 1440 := by norm_num
      exact (mul_le_mul_left h1440).mpr h
    have hx : (1440 : ℚ) * (x / 1440) = x := by ring
    linarith
  · have h := Int.lt_floor_add_one (x / 1440)
    have : (1440 : ℚ) * (x / 1440) < 1440 * (⌊x / 1440⌋ + 1) := by
      have h1440 : (0 : ℚ) < 1440 := by norm_num
      exact (mul_lt_mul_left h1440).mpr h
    have hx : (1440 : ℚ) * (x / 1440) = x := by ring
    linarith

/-- mfmod differs from its argument by an integer multiple of the modulus. -/
theorem mfmod_sub_eq (x : ℚ) : x - mfmod x 1440 = 1440 * (⌊x / 1440⌋ : ℤ) := by
  unfold mfmod
  ring

/-- mfmod is determined by any representative in [0, y). -/
theorem mfmod_eq_of (x c : ℚ) (k : ℤ) (h : x - c = 1440 * k)
    (h0 : 0 ≤ c) (h1 : c < 1440) : mfmod x 1440 = c := by
  have hx : x = c + 1440 * k := by linarith
  have hfl : ⌊x / 1440⌋ = k := by
    rw [hx]
    rw [show (c + 1440 * (k : ℚ)) / 1440 = c / 1440 + k by ring]
    rw [Int.floor_add_int]
    have : ⌊c / 1440⌋ = 0 := by
      apply Int.floor_eq_zero_iff.mpr
      constructor
      · positivity
      · rw [div_lt_one (by norm_num)]
        exact h1
    omega
  unfold mfmod
  rw [hfl, hx]
  ring

set_option maxHeartbeats 1600000 in
/-- C4 (roundtrip): if the single-noon branch of solarNoon reports event st,
then solarTime evaluated at st.time is within 0.01 minutes of 720.  Proved
under explicit physics hypotheses on the abstract equation of time: EoT is
Lipschitz with constant 1e-8 minutes per millisecond (the real slope is below
6e-9), and the civil day is between 23 and 25 hours long. -/
theorem solarNoon_roundTrip (env : Env) (lat long : ℚ) (start dayEnd : ℤ)
    (ecef : List ℚ) (st : SunTime)
    (hK : ∀ u v : ℚ, |env.EoT u - env.EoT v| ≤ |u - v| / 100000000)
    (hL1 : 82800000 ≤ dayEnd - start)
    (hL2 : dayEnd - start ≤ 90000000)
    (hNoon : solarNoon env lat long start dayEnd ecef = [st]) :
    |solarTime env long (st.time : ℚ) - 720| ≤ 1 / 100 := by
  -- Lipschitz bound usable in both directions
  have hEb : ∀ u v B : ℚ, |u - v| ≤ B →
      -(B / 100000000) ≤ env.EoT u - env.EoT v ∧
        env.EoT u - env.EoT v ≤ B / 100000000 := by
    intro u v B h
    have h2 := hK u v
    have h3 : |env.EoT u - env.EoT v| ≤ B / 100000000 :=
      le_trans h2 ((div_le_div_right (by norm_num)).mpr h)
    exact abs_le.mp h3
  have hQ1 : (82800000 : ℚ) ≤ (dayEnd : ℚ) - (start : ℚ) := by exact_mod_cast hL1
  have hQ2 : (dayEnd : ℚ) - (start : ℚ) ≤ 90000000 := by exact_mod_cast hL2
  -- unfold and name the pieces of the computation
  simp only [solarNoon] at hNoon
  set st00 := solarTime env long (start : ℚ) with hst00
  set st24 := solarTime env long (dayEnd : ℚ) with hst24
  set stDiff := mfmod (st24 - st00 - 720) 1440 + 720 with hstDiffd
  set rate := stDiff / ((dayEnd : ℚ) - (start : ℚ)) * 60000 with hrated
  set a := mfmod (720 - st00) 1440 with ha
  set na := (start : ℚ) + a / rate * 60000 with hna
  set fna := solarTime env long na with hfna
  set nb := na + (720 - fna) * 60000 with hnb
  clear_value nb fna na a rate stDiff st24 st00
  split_ifs at hNoon with h1 h2
  · exact absurd hNoon (by simp)
  have htime : (⌊clamp nb (start : ℚ) ((dayEnd : ℚ) - 1)⌋ : ℤ) = st.time := by
    have h := congrArg (fun l : List SunTime => (l.headD ⟨0, 0, 0, ""⟩).time) hNoon
    simpa using h
  -- the unwrapped (non-mod) solar time
  set G : ℚ → ℚ := fun u => env.EoT u + (u / 60000 + long * 4) with hG
  have hsol : ∀ u : ℚ, solarTime env long u = mfmod (G u) 1440 := by
    intro u
    simp only [hG]
    rfl
  have hGd : ∀ u v : ℚ, G u - G v = (u - v) / 60000 + (env.EoT u - env.EoT v) := by
    intro u v
    simp only [hG]
    ring
  clear_value G
  have hGmono : ∀ u v : ℚ, u ≤ v → G u ≤ G v := by
    intro u v huv
    have hd := hGd v u
    have hb := hEb v u (v - u) (le_of_eq (abs_of_nonneg (by linarith)))
    linarith [hb.1]
  -- bounds on the three mod values
  obtain ⟨ha0, ha1⟩ := mfmod_bounds (720 - st00)
  rw [← ha] at ha0 ha1
  have hst00G : st00 = mfmod (G (start : ℚ)) 1440 := hst00.trans (hsol _)
  have hst24G : st24 = mfmod (G (dayEnd : ℚ)) 1440 := hst24.trans (hsol _)
  obtain ⟨hs00a, hs00b⟩ := mfmod_bounds (G (start : ℚ))
  rw [← hst00G] at hs00a hs00b
  obtain ⟨hs24a, hs24b⟩ := mfmod_bounds (G (dayEnd : ℚ))
  rw [← hst24G] at hs24a hs24b
  -- integer mod witnesses
  set k0 : ℤ := ⌊G (start : ℚ) / 1440⌋ with hk0d
  set k1 : ℤ := ⌊G (dayEnd : ℚ) / 1440⌋ with hk1d
  set ka : ℤ := ⌊(720 - st00) / 1440⌋ with hkad
  have hk0 : G (start : ℚ) - st00 = 1440 * (k0 : ℚ) := by
    rw [hst00G, hk0d]
    exact mfmod_sub_eq _
  have hk1 : G (dayEnd : ℚ) - st24 = 1440 * (k1 : ℚ) := by
    rw [hst24G, hk1d]
    exact mfmod_sub_eq _
  have hka : (720 - st00) - a = 1440 * (ka : ℚ) := by
    rw [ha, hkad]
    exact mfmod_sub_eq _
  -- F1: stDiff is the exact unwrapped growth over the day
  have hdE := hEb (dayEnd : ℚ) (start : ℚ) 90000000
    (by rw [abs_of_nonneg (by linarith)]; exact hQ2)
  have hGL : G (dayEnd : ℚ) - G (start : ℚ) =
      ((dayEnd : ℚ) - (start : ℚ)) / 60000 + (env.EoT (dayEnd : ℚ) - env.EoT (start : ℚ)) :=
    hGd _ _
  have hstDiffG : stDiff = G (dayEnd : ℚ) - G (start : ℚ) := by
    have hmod : mfmod (st24 - st00 - 720) 1440 =
        G (dayEnd : ℚ) - G (start : ℚ) - 720 := by
      apply mfmod_eq_of _ _ (k0 - k1)
      · push_cast
        linarith [hk0, hk1]
      · linarith [hdE.1]
      · linarith [hdE.2]
    rw [hstDiffd, hmod]
    ring
  -- F2: rate is within 1/1000 of 1
  have hLpos : (0 : ℚ) < (dayEnd : ℚ) - (start : ℚ) := by linarith
  have hexp : stDiff * 60000 = ((dayEnd : ℚ) - (start : ℚ)) +
      60000 * (env.EoT (dayEnd : ℚ) - env.EoT (start : ℚ)) := by
    rw [hstDiffG, hGL]
    ring
  have hrate_ub : rate ≤ 1001 / 1000 := by
    rw [hrated, div_mul_eq_mul_div, div_le_iff hLpos]
    linarith [hdE.2]
  have hrate_lb : 999 / 1000 ≤ rate := by
    rw [hrated, div_mul_eq_mul_div, le_div_iff hLpos]
    linarith [hdE.1]
  have hrate_pos : 0 < rate := lt_of_lt_of_le (by norm_num) hrate_lb
  -- F3: the integer offset M aligning G(start) + a with 720
  set M : ℤ := k0 - ka with hMd
  have hM : G (start : ℚ) + a = 720 + 1440 * (M : ℚ) := by
    rw [hMd]
    push_cast
    linarith [hk0, hka]
  -- F4: na stays within a bounded window after start
  have hdiv_nonneg : 0 ≤ a / rate := div_nonneg ha0 (le_of_lt hrate_pos)
  have hna_lb : (start : ℚ) ≤ na := by
    rw [hna]
    nlinarith [hdiv_nonneg]
  have hdiv_ub : a / rate ≤ 1450 := by
    rw [div_le_iff hrate_pos]
    linarith [hrate_lb]
  have hna_ub : na ≤ (start : ℚ) + 87000000 := by
    rw [hna]
    linarith [hdiv_ub]
  -- F5: G at na deviates from 720 + 1440 M by at most 3
  have hEna := hEb na (start : ℚ) 87000000
    (by rw [abs_of_nonneg (by linarith)]; linarith)
  have hstep : (na - (start : ℚ)) / 60000 = a / rate := by
    rw [hna]
    ring
  have hdev : G na - (720 + 1440 * (M : ℚ)) =
      (a / rate - a) + (env.EoT na - env.EoT (start : ℚ)) := by
    have hGna_d := hGd na (start : ℚ)
    rw [hstep] at hGna_d
    linarith [hM]
  have p1 : a * (999 / 1000) ≤ a * rate := mul_le_mul_of_nonneg_left hrate_lb ha0
  have p2 : a * rate ≤ a * (1001 / 1000) := mul_le_mul_of_nonneg_left hrate_ub ha0
  have hbr1 : a / rate - a ≤ 2 := by
    have h : a / rate ≤ a + 2 := by
      rw [div_le_iff hrate_pos]
      linarith [p1, hrate_lb, ha1]
    linarith
  have hbr2 : -2 ≤ a / rate - a := by
    have h : a - 2 ≤ a / rate := by
      rw [le_div_iff hrate_pos]
      linarith [p2, hrate_lb, ha1]
    linarith
  have hGna_ub : G na - (720 + 1440 * (M : ℚ)) ≤ 3 := by
    rw [hdev]
    linarith [hEna.2]
  have hGna_lb : -3 ≤ G na - (720 + 1440 * (M : ℚ)) := by
    rw [hdev]
    linarith [hEna.1]
  -- F6: solar time at na, unwrapped
  have hfna2 : fna = G na - 1440 * (M : ℚ) := by
    rw [hfna, hsol]
    apply mfmod_eq_of _ _ M
    · push_cast
      ring
    · linarith
    · linarith
  -- F7: G at nb lands within 2/1000 of 720 + 1440 M
  have hstep2 : (nb - na) / 60000 = 720 - fna := by
    rw [hnb]
    ring
  have hnbG : G nb - (720 + 1440 * (M : ℚ)) = env.EoT nb - env.EoT na := by
    have hGnb_d := hGd nb na
    rw [hstep2] at hGnb_d
    linarith [hfna2]
  have hfnabd : |720 - fna| ≤ 3 := by
    rw [abs_le]
    constructor
    · linarith [hGna_ub, hfna2]
    · linarith [hGna_lb, hfna2]
  have hnbna : |nb - na| ≤ 180000 := by
    have heq : nb - na = (720 - fna) * 60000 := by
      rw [hnb]
      ring
    rw [heq, abs_mul, abs_of_pos (show (0 : ℚ) < 60000 by norm_num)]
    linarith [hfnabd]
  have hE2 := hEb nb na 180000 hnbna
  have hnb_ub : G nb - (720 + 1440 * (M : ℚ)) ≤ 9 / 5000 := by
    rw [hnbG]
    linarith [hE2.2]
  have hnb_lb : -(9 / 5000) ≤ G nb - (720 + 1440 * (M : ℚ)) := by
    rw [hnbG]
    linarith [hE2.1]
  -- final case split on the clamp
  rw [← htime]
  by_cases hc1 : nb ≤ (start : ℚ)
  · -- clamped to the start of the day
    have hclamp : clamp nb (start : ℚ) ((dayEnd : ℚ) - 1) = (start : ℚ) := by
      simp only [clamp, if_pos hc1]
    rw [hclamp, Int.floor_intCast, ← hst00]
    -- a is pinched to at most 9/5000 and ka = 0, so st00 = 720 - a
    have hGle : G nb ≤ G (start : ℚ) := hGmono _ _ hc1
    have haub : a ≤ 9 / 5000 := by linarith [hnb_lb, hM]
    have hka0 : ka = 0 := by
      have h3 : (ka : ℚ) < 1 := by linarith [hka]
      have h4 : (-1 : ℚ) < (ka : ℚ) := by linarith [hka]
      have h5 : ka < 1 := by exact_mod_cast h3
      have h6 : -1 < ka := by exact_mod_cast h4
      omega
    rw [hka0] at hka
    push_cast at hka
    rw [abs_le]
    constructor
    · linarith
    · linarith
  · by_cases hc2 : nb ≥ (dayEnd : ℚ) - 1
    · -- clamped to the end of the day
      have hclamp : clamp nb (start : ℚ) ((dayEnd : ℚ) - 1) = (dayEnd : ℚ) - 1 := by
        simp only [clamp, if_neg hc1, if_pos hc2]
      have hfl : (⌊(dayEnd : ℚ) - 1⌋ : ℤ) = dayEnd - 1 := by
        rw [show ((dayEnd : ℚ) - 1) = ((dayEnd - 1 : ℤ) : ℚ) by push_cast; ring,
          Int.floor_intCast]
      rw [hclamp, hfl]
      -- w := unwrapped overshoot at the end of the day
      set w : ℚ := G (dayEnd : ℚ) - (720 + 1440 * (M : ℚ)) with hwd
      have hw_ub : w ≤ 9 / 5000 + 1 / 50000 := by
        -- G(dayEnd - 1) ≤ G nb, and G dayEnd exceeds G(dayEnd - 1) by ≈ 1/60000
        have hmono : G ((dayEnd : ℚ) - 1) ≤ G nb := hGmono _ _ hc2
        have hdlt := hGd (dayEnd : ℚ) ((dayEnd : ℚ) - 1)
        have hEd := hEb (dayEnd : ℚ) ((dayEnd : ℚ) - 1) 1
          (by rw [show (dayEnd : ℚ) - ((dayEnd : ℚ) - 1) = 1 by ring]; norm_num)
        rw [hwd]
        linarith [hnb_ub, hEd.2]
      -- a = stDiff - w
      have haw : a = stDiff - w := by
        rw [hwd, hstDiffG]
        linarith [hM]
      have hstDiff_lb : (13791 : ℚ) / 10 ≤ stDiff := by
        rw [hstDiffG, hGL]
        linarith [hdE.1]
      have hstDiff_ub : stDiff ≤ 15009 / 10 := by
        rw [hstDiffG, hGL]
        linarith [hdE.2]
      have ha_lb : 1379 ≤ a := by linarith [hw_ub]
      -- ka = -1, so st00 = 2160 - a ∈ (720, 781)
      have hkam1 : ka = -1 := by
        have h3 : (ka : ℚ) < 0 := by linarith [hka]
        have h4 : (-2 : ℚ) < (ka : ℚ) := by linarith [hka]
        have h5 : ka < 0 := by exact_mod_cast h3
        have h6 : -2 < ka := by exact_mod_cast h4
        omega
      rw [hkam1] at hka
      push_cast at hka
      have hst00v : st00 = 2160 - a := by linarith
      -- the zero-noon branch did not fire, which forces w > 0
      have hst24v : st24 = 720 + w := by
        rw [hst24G]
        apply mfmod_eq_of _ _ M
        · rw [hwd]
          ring
        · linarith [haw, hstDiff_ub, ha1]
        · linarith [hw_ub]
      have hw_pos : 0 < w := by
        by_contra hw0
        push_neg at hw0
        exact h2 ⟨by linarith [hst00v, ha1], by linarith [hst00v, ha_lb],
          by linarith [hst24v, haw, hstDiff_lb, ha1], by linarith [hst24v]⟩
      -- evaluate solar time at dayEnd - 1
      have hcast : ((dayEnd - 1 : ℤ) : ℚ) = (dayEnd : ℚ) - 1 := by push_cast; ring
      have hdlt := hGd (dayEnd : ℚ) ((dayEnd : ℚ) - 1)
      have hEd := hEb (dayEnd : ℚ) ((dayEnd : ℚ) - 1) 1
        (by rw [show (dayEnd : ℚ) - ((dayEnd : ℚ) - 1) = 1 by ring]; norm_num)
      have hval : solarTime env long ((dayEnd - 1 : ℤ) : ℚ) =
          720 + w - (G (dayEnd : ℚ) - G ((dayEnd : ℚ) - 1)) := by
        rw [hcast, hsol]
        apply mfmod_eq_of _ _ M
        · rw [hwd]
          ring
        · linarith [hEd.2, hw_pos]
        · linarith [hEd.1, hw_ub]
      rw [hval, abs_le]
      constructor
      · linarith [hEd.2, hw_pos]
      · linarith [hEd.1, hw_ub]
    · -- no clamping: the event time is ⌊nb⌋
      push_neg at hc1 hc2
      have hclamp : clamp nb (start : ℚ) ((dayEnd : ℚ) - 1) = nb := by
        simp only [clamp, if_neg (not_le.mpr hc1), if_neg (not_le.mpr hc2)]
      rw [hclamp]
      have hfl_le : ((⌊nb⌋ : ℤ) : ℚ) ≤ nb := Int.floor_le nb
      have hfl_gt : nb - 1 < ((⌊nb⌋ : ℤ) : ℚ) := Int.sub_one_lt_floor nb
      have hEt := hEb ((⌊nb⌋ : ℤ) : ℚ) nb 1
        (by rw [abs_le]; constructor <;> linarith)
      have hdt := hGd ((⌊nb⌋ : ℤ) : ℚ) nb
      have hGt_ub : G ((⌊nb⌋ : ℤ) : ℚ) - (720 + 1440 * (M : ℚ)) ≤ 19 / 10000 := by
        linarith [hnb_ub, hEt.2, hdt, hfl_le]
      have hGt_lb : -(19 / 10000) ≤ G ((⌊nb⌋ : ℤ) : ℚ) - (720 + 1440 * (M : ℚ)) := by
        linarith [hnb_lb, hEt.1, hdt, hfl_gt]
      have hval : solarTime env long ((⌊nb⌋ : ℤ) : ℚ) =
          G ((⌊nb⌋ : ℤ) : ℚ) - 1440 * (M : ℚ) := by
        rw [hsol]
        apply mfmod_eq_of _ _ M
        · push_cast
          ring
        · linarith [hGt_lb]
        · linarith [hGt_ub]
      rw [hval, abs_le]
      constructor
      · linarith [hGt_lb]
      · linarith [hGt_ub]

/-- Witness for C4: zero equation of time, day [0, 86400000), longitude 0;
solarNoon lands on 43200000 ms and the round-trip solar time is exactly 720. -/
theorem solarNoon_roundTrip_witness :
    |solarTime testEnv 0 (((⟨43200000, 50, 0, "Solar Noon"⟩ : SunTime).time : ℤ) : ℚ) - 720| ≤
      1 / 100 :=
  solarNoon_roundTrip testEnv 0 0 0 86400000 [] ⟨43200000, 50, 0, "Solar Noon"⟩
    (by
      intro u v
      show |(0 : ℚ) - 0| ≤ |u - v| / 100000000
      rw [sub_zero, abs_zero]
      positivity)
    (by norm_num) (by norm_num)
    (by norm_num [solarNoon, solarTime, mfmod, clamp, testEnv, testElev])

/-- Two-sided Taylor bound for sin on [0, 1], in terms of a rational bracket
of the argument. -/
theorem sin_taylor_interval (x a b : ℝ) (ha : 0 ≤ a) (hx1 : a ≤ x) (hx2 : x ≤ b)
    (hb : b ≤ 1) :
    a - b ^ 3 / 6 - b ^ 4 * (5 / 96) ≤ Real.sin x ∧
      Real.sin x ≤ b - a ^ 3 / 6 + b ^ 4 * (5 / 96) := by
  have hx0 : 0 ≤ x := le_trans ha hx1
  have hxabs : |x| ≤ 1 := by
    rw [abs_of_nonneg hx0]
    linarith
  have hsb := Real.sin_bound hxabs
  rw [abs_of_nonneg hx0, abs_le] at hsb
  obtain ⟨h1, h2⟩ := hsb
  have h3a : a ^ 3 ≤ x ^ 3 := pow_le_pow_left ha hx1 3
  have h3b : x ^ 3 ≤ b ^ 3 := pow_le_pow_left hx0 hx2 3
  have h4b : x ^ 4 ≤ b ^ 4 := pow_le_pow_left hx0 hx2 4
  have h40 : (0 : ℝ) ≤ x ^ 4 := by positivity
  constructor
  · linarith
  · linarith

/-- Two-sided Taylor bound for cos on [0, 1], in terms of a rational bracket
of the argument. -/
theorem cos_taylor_interval (x a b : ℝ) (ha : 0 ≤ a) (hx1 : a ≤ x) (hx2 : x ≤ b)
    (hb : b ≤ 1) :
    1 - b ^ 2 / 2 - b ^ 4 * (5 / 96) ≤ Real.cos x ∧
      Real.cos x ≤ 1 - a ^ 2 / 2 + b ^ 4 * (5 / 96) := by
  have hx0 : 0 ≤ x := le_trans ha hx1
  have hxabs : |x| ≤ 1 := by
    rw [abs_of_nonneg hx0]
    linarith
  have hcb := Real.cos_bound hxabs
  rw [abs_of_nonneg hx0, abs_le] at hcb
  obtain ⟨h1, h2⟩ := hcb
  have h2a : a ^ 2 ≤ x ^ 2 := pow_le_pow_left ha hx1 2
  have h2b : x ^ 2 ≤ b ^ 2 := pow_le_pow_left hx0 hx2 2
  have h4b : x ^ 4 ≤ b ^ 4 := pow_le_pow_left hx0 hx2 4
  have h40 : (0 : ℝ) ≤ x ^ 4 := by positivity
  constructor
  · linarith
  · linarith

set_option maxHeartbeats 1600000 in
/-- The cotangent branch at the -5/6 degree boundary, bracketed. -/
theorem refractionBelow_boundary_bounds :
    (0.618276395 : ℝ) ≤ refractionBelow (-5/6) ∧
      refractionBelow (-5/6) ≤ 0.618276423 := by
  have hpi_lo := Real.pi_gt_d20
  have hpi_hi := Real.pi_lt_d20
  -- bracket the half angle u1 = pi / 432
  have hu1lo : (0.007272205216 : ℝ) ≤ Real.pi / 432 := by linarith
  have hu1hi : Real.pi / 432 ≤ 0.007272205217 := by linarith
  obtain ⟨hs1, hs2⟩ := sin_taylor_interval (Real.pi / 432) 0.007272205216
    0.007272205217 (by norm_num) hu1lo hu1hi (by norm_num)
  obtain ⟨hc1, hc2⟩ := cos_taylor_interval (Real.pi / 432) 0.007272205216
    0.007272205217 (by norm_num) hu1lo hu1hi (by norm_num)
  have hs1' : (0.00727214097 : ℝ) ≤ Real.sin (Real.pi / 432) :=
    le_trans (by norm_num) hs1
  have hs2' : Real.sin (Real.pi / 432) ≤ 0.00727214127 :=
    le_trans hs2 (by norm_num)
  have hc1' : (0.99997355736 : ℝ) ≤ Real.cos (Real.pi / 432) :=
    le_trans (by norm_num) hc1
  have hc2' : Real.cos (Real.pi / 432) ≤ 0.99997355767 :=
    le_trans hc2 (by norm_num)
  -- double the angle to t1 = pi / 216
  have ht1 : Real.pi / 216 = 2 * (Real.pi / 432) := by ring
  have hst : Real.sin (Real.pi / 216) =
      2 * Real.sin (Real.pi / 432) * Real.cos (Real.pi / 432) := by
    rw [ht1, Real.sin_two_mul]
  have hct : Real.cos (Real.pi / 216) =
      2 * Real.cos (Real.pi / 432) ^ 2 - 1 := by
    rw [ht1, Real.cos_two_mul]
  have hmlo : (0.00727214097 : ℝ) * 0.99997355736 ≤
      Real.sin (Real.pi / 432) * Real.cos (Real.pi / 432) :=
    mul_le_mul hs1' hc1' (by norm_num) (by linarith)
  have hmhi : Real.sin (Real.pi / 432) * Real.cos (Real.pi / 432) ≤
      (0.00727214127 : ℝ) * 0.99997355767 :=
    mul_le_mul hs2' hc2' (by linarith) (by norm_num)
  have hstlo : (0.01454389735 : ℝ) ≤ Real.sin (Real.pi / 216) := by
    rw [hst]
    linarith [hmlo]
  have hsthi : Real.sin (Real.pi / 216) ≤ 0.01454389796 := by
    rw [hst]
    linarith [hmhi]
  have hsqlo : (0.99997355736 : ℝ) ^ 2 ≤ Real.cos (Real.pi / 432) ^ 2 :=
    pow_le_pow_left (by norm_num) hc1' 2
  have hsqhi : Real.cos (Real.pi / 432) ^ 2 ≤ (0.99997355767 : ℝ) ^ 2 :=
    pow_le_pow_left (by linarith) hc2' 2
  have hctlo : (0.99989423083 : ℝ) ≤ Real.cos (Real.pi / 216) := by
    rw [hct]
    linarith [hsqlo]
  have hcthi : Real.cos (Real.pi / 216) ≤ 0.99989423208 := by
    rw [hct]
    linarith [hsqhi]
  -- the branch value as a sine/cosine quotient
  have hb1eq : refractionBelow (-5/6) =
      0.0089931 * (Real.cos (Real.pi / 216) / Real.sin (Real.pi / 216)) := by
    unfold refractionBelow
    rw [show ((-5/6 : ℝ) * (Real.pi / 180)) = -(Real.pi / 216) by ring]
    rw [Real.tan_neg, Real.tan_eq_sin_div_cos, div_neg, neg_div, neg_neg,
      div_div_eq_mul_div, mul_div_assoc]
  have hspos : (0 : ℝ) < Real.sin (Real.pi / 216) := by linarith
  have hq_lo : (0.99989423083 : ℝ) / 0.01454389796 ≤
      Real.cos (Real.pi / 216) / Real.sin (Real.pi / 216) :=
    div_le_div (by linarith) hctlo hspos hsthi
  have hq_hi : Real.cos (Real.pi / 216) / Real.sin (Real.pi / 216) ≤
      (0.99989423208 : ℝ) / 0.01454389735 :=
    div_le_div (by norm_num) hcthi (by norm_num) hstlo
  rw [hb1eq]
  constructor
  · linarith [hq_lo]
  · linarith [hq_hi]

set_option maxHeartbeats 1600000 in
/-- The Meeus branch at the -5/6 degree boundary, bracketed. -/
theorem refractionAbove_boundary_bounds :
    (0.61827372 : ℝ) ≤ refractionAbove (-5/6) ∧
      refractionAbove (-5/6) ≤ 0.6182739 := by
  have hpi_lo := Real.pi_gt_d20
  have hpi_hi := Real.pi_lt_d20
  -- bracket the half angle u2 = (12125 / 2771280) * pi
  have hu2lo : (0.013745204715 : ℝ) ≤ (12125 / 2771280) * Real.pi := by linarith
  have hu2hi : (12125 / 2771280) * Real.pi ≤ 0.013745204716 := by linarith
  obtain ⟨hs1, hs2⟩ := sin_taylor_interval ((12125 / 2771280) * Real.pi)
    0.013745204715 0.013745204716 (by norm_num) hu2lo hu2hi (by norm_num)
  obtain ⟨hc1, hc2⟩ := cos_taylor_interval ((12125 / 2771280) * Real.pi)
    0.013745204715 0.013745204716 (by norm_num) hu2lo hu2hi (by norm_num)
  have hs1' : (0.01374477004 : ℝ) ≤ Real.sin ((12125 / 2771280) * Real.pi) :=
    le_trans (by norm_num) hs1
  have hs2' : Real.sin ((12125 / 2771280) * Real.pi) ≤ 0.01374477377 :=
    le_trans hs2 (by norm_num)
  have hc1' : (0.99990553281 : ℝ) ≤ Real.cos ((12125 / 2771280) * Real.pi) :=
    le_trans (by norm_num) hc1
  have hc2' : Real.cos ((12125 / 2771280) * Real.pi) ≤ 0.99990553654 :=
    le_trans hc2 (by norm_num)
  -- double the angle to t2 = (12125 / 1385640) * pi
  have ht2 : (12125 / 1385640 : ℝ) * Real.pi = 2 * ((12125 / 2771280) * Real.pi) := by
    ring
  have hst : Real.sin ((12125 / 1385640) * Real.pi) =
      2 * Real.sin ((12125 / 2771280) * Real.pi) *
        Real.cos ((12125 / 2771280) * Real.pi) := by
    rw [ht2, Real.sin_two_mul]
  have hct : Real.cos ((12125 / 1385640) * Real.pi) =
      2 * Real.cos ((12125 / 2771280) * Real.pi) ^ 2 - 1 := by
    rw [ht2, Real.cos_two_mul]
  have hmlo : (0.01374477004 : ℝ) * 0.99990553281 ≤
      Real.sin ((12125 / 2771280) * Real.pi) *
        Real.cos ((12125 / 2771280) * Real.pi) :=
    mul_le_mul hs1' hc1' (by norm_num) (by linarith)
  have hmhi : Real.sin ((12125 / 2771280) * Real.pi) *
      Real.cos ((12125 / 2771280) * Real.pi) ≤
        (0.01374477377 : ℝ) * 0.99990553654 :=
    mul_le_mul hs2' hc2' (by linarith) (by norm_num)
  have hstlo : (0.02748694322 : ℝ) ≤ Real.sin ((12125 / 1385640) * Real.pi) := by
    rw [hst]
    linarith [hmlo]
  have hsthi : Real.sin ((12125 / 1385640) * Real.pi) ≤ 0.02748695079 := by
    rw [hst]
    linarith [hmhi]
  have hsqlo : (0.99990553281 : ℝ) ^ 2 ≤
      Real.cos ((12125 / 2771280) * Real.pi) ^ 2 :=
    pow_le_pow_left (by norm_num) hc1' 2
  have hsqhi : Real.cos ((12125 / 2771280) * Real.pi) ^ 2 ≤
      (0.99990553654 : ℝ) ^ 2 :=
    pow_le_pow_left (by linarith) hc2' 2
  have hctlo : (0.99962214908 : ℝ) ≤ Real.cos ((12125 / 1385640) * Real.pi) := by
    rw [hct]
    linarith [hsqlo]
  have hcthi : Real.cos ((12125 / 1385640) * Real.pi) ≤ 0.99962216401 := by
    rw [hct]
    linarith [hsqhi]
  -- the branch value as a sine/cosine quotient
  have hb2eq : refractionAbove (-5/6) =
      (1.02 * (Real.cos ((12125 / 1385640) * Real.pi) /
        Real.sin ((12125 / 1385640) * Real.pi)) + 0.001927) / 60 := by
    unfold refractionAbove
    rw [show ((-5/6 : ℝ) + 10.3 / (-5/6 + 5.11)) * (Real.pi / 180) =
        (12125 / 1385640) * Real.pi by
      rw [show ((-5/6 : ℝ) + 10.3 / (-5/6 + 5.11)) = 12125 / 7698 by norm_num]
      ring]
    rw [Real.tan_eq_sin_div_cos, div_div_eq_mul_div, mul_div_assoc]
  have hspos : (0 : ℝ) < Real.sin ((12125 / 1385640) * Real.pi) := by linarith
  have hq_lo : (0.99962214908 : ℝ) / 0.02748695079 ≤
      Real.cos ((12125 / 1385640) * Real.pi) /
        Real.sin ((12125 / 1385640) * Real.pi) :=
    div_le_div (by linarith) hctlo hspos hsthi
  have hq_hi : Real.cos ((12125 / 1385640) * Real.pi) /
      Real.sin ((12125 / 1385640) * Real.pi) ≤
        (0.99962216401 : ℝ) / 0.02748694322 :=
    div_le_div (by norm_num) hcthi (by norm_num) hstlo
  rw [hb2eq]
  constructor
  · linarith [hq_lo]
  · linarith [hq_hi]

/-- C7 counterexample: at the branch boundary elev = -5/6 degrees the two
branches of suncalc.refraction differ by about 2.6e-6 degrees, which exceeds
the 1e-6 tolerance asserted by the spec. -/
theorem refraction_boundary_gap_over_claim :
    ¬(|refractionBelow (-5/6) - refractionAbove (-5/6)| ≤ 1 / 1000000) := by
  obtain ⟨hb1, _⟩ := refractionBelow_boundary_bounds
  obtain ⟨_, hb2⟩ := refractionAbove_boundary_bounds
  push_neg
  calc (1 / 1000000 : ℝ) < refractionBelow (-5/6) - refractionAbove (-5/6) := by
        linarith
    _ ≤ |refractionBelow (-5/6) - refractionAbove (-5/6)| := le_abs_self _

/-- C7 amended: the two branches of suncalc.refraction agree at the -5/6
degree boundary to within 3e-6 degrees (the true gap is about 2.596e-6). -/
theorem refraction_boundary_gap_le_amended :
    |refractionBelow (-5/6) - refractionAbove (-5/6)| ≤ 3 / 1000000 := by
  obtain ⟨hb1lo, hb1hi⟩ := refractionBelow_boundary_bounds
  obtain ⟨hb2lo, hb2hi⟩ := refractionAbove_boundary_bounds
  rw [abs_le]
  constructor
  · linarith
  · linarith

end SunCompass
